import Mathlib

/-!
Verification of the Danbooru Random Tag Selector against its design notes.

The program (`danbooru_tag_gen_no_chara_ui.py`) is a single-file utility:
`fetch_tags` performs up to `max_requests` HTTP requests to an image-board
API, accumulates deduplicated tag pools and source-post URLs, then draws a
random sample.  The surrounding Tk application validates user input,
invokes `fetch_tags` on a worker thread, and exports results to text files.

Embedding conventions:
* HTTP is modelled by an environment `Env : Nat → Except String (List Post)`
  giving, for each value of the `requests_made` counter at issue time, either
  the parsed JSON post list or a transport-error message
  (`requests.exceptions.RequestException`).
* Python `set` objects are modelled as duplicate-free lists maintained by
  `setInsert` / `setUnion`; `list(s)` is the identity on this model.
* Randomness (`random.shuffle`, `random.sample`) is modelled by an oracle
  `rand : List String → List String`; theorems that need uniform-permutation
  behaviour take the hypothesis that `rand` permutes its argument.
  `random.sample(pool, k)` is `take k` of a permuted pool and raises
  `ValueError` exactly when `k` is negative or exceeds the population size,
  so the embedding returns `Except`.
* Python `str.split()` (whitespace tokenisation, empty tokens dropped) is
  `pySplit`; Python `int(...)` is `pyInt` (strip whitespace, optional sign,
  at least one digit); Python `sorted` on strings is `pySorted`.
-/

namespace DanbooruTagGen

/-- A post object of the remote JSON API: an optional integer `id` and the
five category tag-string fields; `post.get(field, '')` yields `""` when a
field is absent, hence `Option String` with default `""`. -/
structure Post where
  id : Option Int
  tag_string_general : Option String
  tag_string_copyright : Option String
  tag_string_character : Option String
  tag_string_meta : Option String
  tag_string_artist : Option String
  deriving DecidableEq

/-- Tokeniser worker for Python `str.split()`: splits on whitespace runs and
drops empty tokens; `acc` holds the current in-progress token, reversed. -/
def wsTokensAux : List Char → List Char → List (List Char)
  | [], acc => if acc = [] then [] else [acc.reverse]
  | c :: cs, acc =>
    if c.isWhitespace then
      if acc = [] then wsTokensAux cs [] else acc.reverse :: wsTokensAux cs []
    else wsTokensAux cs (c :: acc)

/-- Python `s.split()` with no argument. -/
def pySplit (s : String) : List String :=
  (wsTokensAux s.data []).map (fun cs => ⟨cs⟩)

/-- Insertion into a Python-set model: a duplicate-free list, insertion
order preserved. -/
def setInsert (s : List String) (x : String) : List String :=
  if x ∈ s then s else s ++ [x]

/-- `s.update(xs)` on the Python-set model. -/
def setUnion (s : List String) (xs : List String) : List String :=
  xs.foldl setInsert s

/-- The mutable state of `fetch_tags`' aggregation loop. -/
structure FetchState where
  collected_tags : List String
  collected_artist_tags : List String
  source_post_urls : List String
  requests_made : Nat
  deriving DecidableEq

/-- All three sets empty, no request made yet. -/
def initState : FetchState := ⟨[], [], [], 0⟩

/-- `needed_candidates = count * 3 + 20`. -/
def needed_candidates (count : Int) : Int := count * 3 + 20

/-- `max_requests = 10`, the safety break of the loop. -/
def max_requests : Nat := 10

/-- The canonical source URL built from a post id. -/
def postUrl (i : Int) : String :=
  "https://danbooru.donmai.us/posts/" ++ toString i

/-- The per-post body of the aggregation loop: record the source URL when
`id` is present, merge general/copyright/character/meta tokens into
`collected_tags`, and artist tokens into `collected_artist_tags`. -/
def processPost (st : FetchState) (p : Post) : FetchState :=
  let st1 := match p.id with
    | some i => { st with source_post_urls := setInsert st.source_post_urls (postUrl i) }
    | none => st
  let general_tags := pySplit (p.tag_string_general.getD "")
  let copyright_tags := pySplit (p.tag_string_copyright.getD "")
  let character_tags := pySplit (p.tag_string_character.getD "")
  let meta_tags := pySplit (p.tag_string_meta.getD "")
  let artist_tags := pySplit (p.tag_string_artist.getD "")
  { st1 with
    collected_tags :=
      setUnion (setUnion (setUnion (setUnion st1.collected_tags general_tags)
        copyright_tags) character_tags) meta_tags,
    collected_artist_tags := setUnion st1.collected_artist_tags artist_tags }

/-- The network environment: response to the request issued while
`requests_made` holds the given value (before its increment). -/
abbrev Env := Nat → Except String (List Post)

/-- `len(collected_tags) + len(collected_artist_tags)` as an integer, the
quantity the loop guard compares against `needed_candidates`. -/
def combinedCount (st : FetchState) : Int :=
  st.collected_tags.length + st.collected_artist_tags.length

/-- The `while` loop of `fetch_tags`.  The guard is exactly the source's;
the fuel argument only realises termination and is started at
`max_requests`, which the guard's second conjunct never lets it outrun.
A transport error aborts the loop with `.error`; an empty post list simply
consumes one attempt (`continue`). -/
def fetchLoop (env : Env) (needed : Int) : Nat → FetchState → Except String FetchState
  | 0, st => .ok st
  | fuel + 1, st =>
    if combinedCount st < needed ∧ st.requests_made < max_requests then
      let st1 := { st with requests_made := st.requests_made + 1 }
      match env st.requests_made with
      | .error e => .error e
      | .ok posts => fetchLoop env needed fuel (posts.foldl processPost st1)
    else .ok st

/-- `f"artist: {tag}"`. -/
def artistTag (t : String) : String := "artist: " ++ t

/-- `final_pool = list(collected_tags) + [f"artist: {tag}" for tag in
collected_artist_tags]`. -/
def finalPool (st : FetchState) : List String :=
  st.collected_tags ++ st.collected_artist_tags.map artistTag

/-- The randomness oracle standing for the `random` module: a reordering
of a list.  `random.shuffle` is one application of it. -/
abbrev Shuffler := List String → List String

/-- The `ValueError` message of `random.sample`. -/
def sampleErrorMsg : String := "ValueError: Sample larger than population or is negative"

/-- `random.sample(pool, k)`: `k` distinct positions drawn without
replacement, modelled as the first `k` elements of a permuted pool;
raises `ValueError` unless `0 ≤ k ≤ len(pool)`. -/
def pySample (rand : Shuffler) (pool : List String) (k : Int) : Except String (List String) :=
  if k < 0 ∨ (pool.length : Int) < k then .error sampleErrorMsg
  else .ok ((rand pool).take k.toNat)

/-- The tuple `(list_of_tags, list_of_post_urls, full_tag_pool,
status_message)` returned by `fetch_tags`. -/
structure FetchResult where
  tags : List String
  post_urls : List String
  full_pool : List String
  status : String
  deriving DecidableEq

/-- Status string of the transport-failure return. -/
def errorStatus (e : String) : String :=
  "Error: Failed to fetch posts from Danbooru. " ++ e

/-- Status string of the shortfall (degraded-success) return. -/
def warningStatus (n : Nat) : String :=
  "Warning: Found only " ++ toString n ++ " unique tags. Returning all."

/-- Status string of the success return. -/
def successStatus (n : Nat) : String :=
  "Success! Generated " ++ toString n ++ " tags from random posts."

/-- `fetch_tags(count)`.  The outer `Except` is Python exception flow: an
uncaught `ValueError` from `random.sample` is `.error`; every normal
`return` (the transport-failure return included) is `.ok`. -/
def fetch_tags (rand : Shuffler) (env : Env) (count : Int) : Except String FetchResult :=
  match fetchLoop env (needed_candidates count) max_requests initState with
  | .error e => .ok ⟨[], [], [], errorStatus e⟩
  | .ok st =>
    let final_pool := finalPool st
    if (final_pool.length : Int) < count then
      let shuffled := rand final_pool
      .ok ⟨shuffled, st.source_post_urls, shuffled, warningStatus shuffled.length⟩
    else
      match pySample rand final_pool count with
      | .error e => .error e
      | .ok selected_tags =>
        .ok ⟨selected_tags, st.source_post_urls, final_pool, successStatus selected_tags.length⟩

/-- A status "indicating success" is one beginning with `"Success"`. -/
def statusIndicatesSuccess (s : String) : Prop := "Success".data <+: s.data

/-! ### The Tk presenter: input validation and export rendering -/

/-- Value of an unsigned decimal digit string. -/
def digitsVal (cs : List Char) : Nat :=
  cs.foldl (fun n c => n * 10 + (c.toNat - ('0').toNat)) 0

/-- Strip leading and trailing whitespace. -/
def stripWs (cs : List Char) : List Char :=
  ((cs.dropWhile Char.isWhitespace).reverse.dropWhile Char.isWhitespace).reverse

/-- Python `int(s)`: optional surrounding whitespace, an optional sign, then
one or more decimal digits; `none` models the raised `ValueError`. -/
def pyInt (s : String) : Option Int :=
  match stripWs s.data with
  | '-' :: rest =>
    if rest ≠ [] ∧ rest.all Char.isDigit then some (-(digitsVal rest : Int)) else none
  | '+' :: rest =>
    if rest ≠ [] ∧ rest.all Char.isDigit then some (digitsVal rest : Int) else none
  | rest =>
    if rest ≠ [] ∧ rest.all Char.isDigit then some (digitsVal rest : Int) else none

/-- The two input modes of the UI radio buttons. -/
inductive UIMode
  | fixed
  | random
  deriving DecidableEq

/-- Outcome of `start_generation_thread`'s validation phase: either a
`messagebox.showerror` (and no fetch), or a worker thread running
`fetch_tags` with the given count. -/
inductive UIAction
  | showError (title msg : String)
  | startFetch (count : Int)
  deriving DecidableEq

/-- `messagebox` text for unparsable numeric entries. -/
def invalidNumberMsg : String := "Please enter valid whole numbers for the tag amounts."

/-- `messagebox` text for an inverted range. -/
def minMaxErrorMsg : String := "Minimum value cannot be greater than the maximum value."

/-- The decision logic of `TagGeneratorApp.start_generation_thread`: parse
the relevant entry fields, reject bad input, otherwise choose the count
(directly, or by `random.randint(min_val, max_val)` modelled by the
`randint` oracle) and launch the fetch. -/
def start_generation (mode : UIMode) (fixedEntry minEntry maxEntry : String)
    (randint : Int → Int → Int) : UIAction :=
  match mode with
  | .fixed =>
    match pyInt fixedEntry with
    | some c => .startFetch c
    | none => .showError "Input Error" invalidNumberMsg
  | .random =>
    match pyInt minEntry with
    | none => .showError "Input Error" invalidNumberMsg
    | some min_val =>
      match pyInt maxEntry with
      | none => .showError "Input Error" invalidNumberMsg
      | some max_val =>
        if min_val > max_val then .showError "Input Error" minMaxErrorMsg
        else .startFetch (randint min_val max_val)

/-- Python `sorted` on strings: stable ascending sort by the lexicographic
string order. -/
def pySorted (l : List String) : List String :=
  l.mergeSort (fun a b => decide (a ≤ b))

/-- The exact file content written by `TagGeneratorApp.save_post_sources`:
`"\n".join(sorted(self.post_source_urls))`. -/
def save_post_sources_content (urls : List String) : String :=
  String.intercalate "\n" (pySorted urls)

/-! ### Invariants and concrete fixtures -/

/-- A whitespace-free string, as produced by `pySplit`. -/
def NoWs (t : String) : Prop := ∀ c ∈ t.data, c.isWhitespace = false

/-- The loop invariant of `fetch_tags`: both tag pools are duplicate-free
and hold whitespace-free tokens only. -/
def Inv (st : FetchState) : Prop :=
  st.collected_tags.Nodup ∧ st.collected_artist_tags.Nodup ∧
  (∀ t ∈ st.collected_tags, NoWs t) ∧ (∀ t ∈ st.collected_artist_tags, NoWs t)

/-- An environment whose every response is an empty post list. -/
def envEmpty : Env := fun _ => .ok []

/-- An environment that fails on the very first request. -/
def envDown : Env := fun _ => .error "boom"

/-- A concrete post carrying two general tags and one artist tag. -/
def post1 : Post := ⟨some 7, some "a b", none, none, none, some "ar"⟩

/-- An environment that answers the first request with `post1` and fails
on every later request. -/
def env1 : Env := fun n => if n = 0 then .ok [post1] else .error "t2"

/-- The state the loop reaches under `envEmpty`: nothing collected, the
request budget exhausted. -/
def stateEmpty10 : FetchState := ⟨[], [], [], 10⟩

/-! ### Tokeniser and set-model lemmas -/

theorem wsTokensAux_noWs (cs : List Char) :
    ∀ acc, (∀ c ∈ acc, c.isWhitespace = false) →
      ∀ tok ∈ wsTokensAux cs acc, ∀ c ∈ tok, c.isWhitespace = false := by
  induction cs with
  | nil =>
    intro acc hacc tok htok c hc
    simp only [wsTokensAux] at htok
    split at htok
    · simp at htok
    · simp only [List.mem_singleton] at htok
      subst htok
      exact hacc c (List.mem_reverse.mp hc)
  | cons d ds ih =>
    intro acc hacc tok htok c hc
    simp only [wsTokensAux] at htok
    by_cases hd : d.isWhitespace = true
    · rw [if_pos hd] at htok
      split at htok
      · exact ih [] (by simp) tok htok c hc
      · rcases List.mem_cons.mp htok with h | h
        · subst h
          exact hacc c (List.mem_reverse.mp hc)
        · exact ih [] (by simp) tok h c hc
    · rw [if_neg hd] at htok
      refine ih (d :: acc) ?_ tok htok c hc
      intro x hx
      rcases List.mem_cons.mp hx with h | h
      · subst h
        exact Bool.not_eq_true _ ▸ hd
      · exact hacc x h

theorem pySplit_noWs (s : String) : ∀ t ∈ pySplit s, NoWs t := by
  intro t ht c hc
  simp only [pySplit, List.mem_map] at ht
  obtain ⟨cs, hcs, rfl⟩ := ht
  exact wsTokensAux_noWs s.data [] (by simp) cs hcs c hc

theorem mem_setInsert (s : List String) (x y : String) :
    y ∈ setInsert s x ↔ y ∈ s ∨ y = x := by
  unfold setInsert
  split
  · next hx =>
    constructor
    · exact fun h => Or.inl h
    · rintro (h | rfl)
      · exact h
      · exact hx
  · simp

theorem setInsert_nodup {s : List String} (h : s.Nodup) (x : String) :
    (setInsert s x).Nodup := by
  unfold setInsert
  split
  · exact h
  · next hx =>
    rw [List.nodup_append]
    exact ⟨h, List.nodup_singleton x, by simpa using hx⟩

theorem setInsert_forall {P : String → Prop} {s : List String}
    (hs : ∀ t ∈ s, P t) {x : String} (hx : P x) :
    ∀ t ∈ setInsert s x, P t := by
  intro t ht
  rcases (mem_setInsert s x t).mp ht with h | rfl
  · exact hs t h
  · exact hx

theorem setUnion_nodup :
    ∀ (xs s : List String), s.Nodup → (setUnion s xs).Nodup := by
  intro xs
  induction xs with
  | nil => exact fun s h => h
  | cons x xs ih => exact fun s h => ih (setInsert s x) (setInsert_nodup h x)

theorem setUnion_forall {P : String → Prop} :
    ∀ (xs s : List String), (∀ t ∈ s, P t) → (∀ t ∈ xs, P t) →
      ∀ t ∈ setUnion s xs, P t := by
  intro xs
  induction xs with
  | nil => exact fun s hs _ => hs
  | cons x xs ih =>
    intro s hs hxs
    exact ih (setInsert s x) (setInsert_forall hs (hxs x (by simp)))
      (fun t ht => hxs t (List.mem_cons_of_mem x ht))

/-! ### Loop invariant preservation -/

theorem processPost_inv {st : FetchState} (h : Inv st) (p : Post) :
    Inv (processPost st p) := by
  obtain ⟨h1, h2, h3, h4⟩ := h
  unfold processPost
  cases p.id with
  | none =>
    refine ⟨?_, ?_, ?_, ?_⟩
    · exact setUnion_nodup _ _ (setUnion_nodup _ _ (setUnion_nodup _ _
        (setUnion_nodup _ _ h1)))
    · exact setUnion_nodup _ _ h2
    · exact setUnion_forall _ _ (setUnion_forall _ _ (setUnion_forall _ _
        (setUnion_forall _ _ h3 (pySplit_noWs _))
        (pySplit_noWs _)) (pySplit_noWs _)) (pySplit_noWs _)
    · exact setUnion_forall _ _ h4 (pySplit_noWs _)
  | some i =>
    refine ⟨?_, ?_, ?_, ?_⟩
    · exact setUnion_nodup _ _ (setUnion_nodup _ _ (setUnion_nodup _ _
        (setUnion_nodup _ _ h1)))
    · exact setUnion_nodup _ _ h2
    · exact setUnion_forall _ _ (setUnion_forall _ _ (setUnion_forall _ _
        (setUnion_forall _ _ h3 (pySplit_noWs _))
        (pySplit_noWs _)) (pySplit_noWs _)) (pySplit_noWs _)
    · exact setUnion_forall _ _ h4 (pySplit_noWs _)

theorem foldl_processPost_inv :
    ∀ (posts : List Post) (st : FetchState), Inv st →
      Inv (posts.foldl processPost st) := by
  intro posts
  induction posts with
  | nil => exact fun st h => h
  | cons p ps ih => exact fun st h => ih (processPost st p) (processPost_inv h p)

theorem processPost_requests (st : FetchState) (p : Post) :
    (processPost st p).requests_made = st.requests_made := by
  unfold processPost
  cases p.id <;> rfl

theorem foldl_processPost_requests :
    ∀ (posts : List Post) (st : FetchState),
      (posts.foldl processPost st).requests_made = st.requests_made := by
  intro posts
  induction posts with
  | nil => exact fun _ => rfl
  | cons p ps ih =>
    exact fun st => (ih (processPost st p)).trans (processPost_requests st p)

theorem fetchLoop_inv (env : Env) (needed : Int) :
    ∀ (fuel : Nat) (st s : FetchState), Inv st →
      fetchLoop env needed fuel st = .ok s → Inv s := by
  intro fuel
  induction fuel with
  | zero =>
    intro st s h heq
    simp only [fetchLoop] at heq
    injection heq with heq
    exact heq ▸ h
  | succ fuel ih =>
    intro st s h heq
    simp only [fetchLoop] at heq
    split at heq
    · cases henv : env st.requests_made with
      | error e =>
        simp only [henv] at heq
        exact Except.noConfusion heq
      | ok posts =>
        simp only [henv] at heq
        have h1 : Inv { st with requests_made := st.requests_made + 1 } := h
        exact ih _ s (foldl_processPost_inv posts _ h1) heq
    · injection heq with heq
      exact heq ▸ h

theorem initState_inv : Inv initState :=
  ⟨List.nodup_nil, List.nodup_nil, by simp [initState], by simp [initState]⟩

theorem fetchLoop_requests (env : Env) (needed : Int) :
    ∀ (fuel : Nat) (st s : FetchState), st.requests_made + fuel = max_requests →
      fetchLoop env needed fuel st = .ok s →
      s.requests_made ≤ max_requests ∧
        (needed ≤ combinedCount s ∨ s.requests_made = max_requests) := by
  intro fuel
  induction fuel with
  | zero =>
    intro st s hfc heq
    simp only [fetchLoop] at heq
    injection heq with heq
    subst heq
    omega
  | succ fuel ih =>
    intro st s hfc heq
    simp only [fetchLoop] at heq
    split at heq
    · cases henv : env st.requests_made with
      | error e =>
        simp only [henv] at heq
        exact Except.noConfusion heq
      | ok posts =>
        simp only [henv] at heq
        refine ih _ s ?_ heq
        rw [foldl_processPost_requests]
        show st.requests_made + 1 + fuel = max_requests
        omega
    · next hguard =>
      injection heq with heq
      subst heq
      rw [not_and_or, Int.not_lt, Nat.not_lt] at hguard
      rcases hguard with hg | hg
      · exact ⟨by omega, Or.inl hg⟩
      · exact ⟨by omega, Or.inr (by omega)⟩

theorem fetchLoop_empty_step (env : Env) (needed : Int) (fuel : Nat) (st : FetchState)
    (hg : combinedCount st < needed ∧ st.requests_made < max_requests)
    (henv : env st.requests_made = .ok []) :
    fetchLoop env needed (fuel + 1) st =
      fetchLoop env needed fuel { st with requests_made := st.requests_made + 1 } := by
  simp only [fetchLoop]
  rw [if_pos hg]
  simp only [henv, List.foldl_nil]

theorem fetchLoop_error_local (env : Env) (needed : Int) :
    ∀ (fuel : Nat) (st : FetchState) (e : String),
      fetchLoop env needed fuel st = .error e →
      ∃ r, env r = .error e ∧ st.requests_made ≤ r ∧
        ∀ env' : Env, (∀ i, i ≤ r → env' i = env i) →
          fetchLoop env' needed fuel st = .error e := by
  intro fuel
  induction fuel with
  | zero =>
    intro st e heq
    simp only [fetchLoop] at heq
    exact Except.noConfusion heq
  | succ fuel ih =>
    intro st e heq
    simp only [fetchLoop] at heq
    split at heq
    · next hguard =>
      cases henv : env st.requests_made with
      | error e' =>
        simp only [henv] at heq
        injection heq with heq
        subst heq
        refine ⟨st.requests_made, henv, le_refl _, ?_⟩
        intro env' hagree
        simp only [fetchLoop]
        rw [if_pos hguard, hagree st.requests_made (le_refl _)]
        simp only [henv]
      | ok posts =>
        simp only [henv] at heq
        obtain ⟨r, hr, hle, hloc⟩ := ih _ e heq
        rw [foldl_processPost_requests] at hle
        have hle2 : st.requests_made + 1 ≤ r := hle
        refine ⟨r, hr, by omega, ?_⟩
        intro env' hagree
        simp only [fetchLoop]
        rw [if_pos hguard, hagree st.requests_made (by omega)]
        simp only [henv]
        exact hloc env' hagree
    · exact Except.noConfusion heq

/-! ### Shape of the combined pool -/

theorem artistTag_inj {a b : String} (h : artistTag a = artistTag b) : a = b := by
  apply String.ext
  have hd := congrArg String.data h
  rw [artistTag, artistTag, String.data_append, String.data_append] at hd
  exact List.append_cancel_left hd

theorem space_mem_artistTag (u : String) : ' ' ∈ (artistTag u).data := by
  rw [artistTag, String.data_append]
  exact List.mem_append.mpr (Or.inl (by decide))

theorem noWs_ne_artistTag {t : String} (h : NoWs t) (u : String) : t ≠ artistTag u := by
  intro heq
  have hf := h ' ' (heq ▸ space_mem_artistTag u)
  have ht : (' ').isWhitespace = true := by decide
  rw [hf] at ht
  exact Bool.noConfusion ht

theorem finalPool_disjoint {st : FetchState} (h : Inv st) :
    ∀ t ∈ st.collected_tags, t ∉ st.collected_artist_tags.map artistTag := by
  intro t ht hmem
  obtain ⟨u, _, hu⟩ := List.mem_map.mp hmem
  exact noWs_ne_artistTag (h.2.2.1 t ht) u hu.symm

theorem finalPool_nodup {st : FetchState} (h : Inv st) : (finalPool st).Nodup := by
  refine List.Nodup.append h.1 (List.Nodup.map (fun a b => artistTag_inj) h.2.1) ?_
  intro t ht hmem
  exact finalPool_disjoint h t ht hmem

theorem finalPool_length (st : FetchState) :
    (finalPool st).length =
      st.collected_tags.length + st.collected_artist_tags.length := by
  rw [finalPool, List.length_append, List.length_map]

theorem finalPool_shape {st : FetchState} (h : Inv st) :
    ∀ t ∈ finalPool st, NoWs t ∨ ∃ u, NoWs u ∧ t = artistTag u := by
  intro t ht
  rcases List.mem_append.mp ht with hmem | hmem
  · exact Or.inl (h.2.2.1 t hmem)
  · obtain ⟨u, hu, rfl⟩ := List.mem_map.mp hmem
    exact Or.inr ⟨u, h.2.2.2 u hu, rfl⟩

/-! ### Status-string discrimination -/

theorem errorStatus_head (e : String) : (errorStatus e).data.head? = some 'E' := by
  rw [errorStatus, String.data_append]
  rfl

theorem warningStatus_head (n : Nat) : (warningStatus n).data.head? = some 'W' := by
  rw [warningStatus, String.data_append, String.data_append]
  rfl

theorem not_success_of_head {s : String} {c : Char} (hc : s.data.head? = some c)
    (hne : c ≠ 'S') : ¬ statusIndicatesSuccess s := by
  rintro ⟨t, ht⟩
  apply hne
  have h1 : ("Success".data ++ t).head? = some 'S' := rfl
  rw [ht, hc] at h1
  exact Option.some.inj h1

theorem successStatus_indicates (n : Nat) : statusIndicatesSuccess (successStatus n) := by
  unfold statusIndicatesSuccess successStatus
  rw [String.data_append, String.data_append]
  have h1 : "Success".data <+: ("Success! Generated ").data := by decide
  exact (h1.trans (List.prefix_append _ _)).trans (List.prefix_append _ _)

theorem successStatus_ne_errorStatus (n : Nat) (e : String) :
    successStatus n ≠ errorStatus e := by
  intro h
  have h1 := errorStatus_head e
  rw [← h] at h1
  have h2 : (successStatus n).data.head? = some 'S' := by
    rw [successStatus, String.data_append, String.data_append]
    rfl
  rw [h2] at h1
  have h3 := Option.some.inj h1
  exact absurd h3 (by decide)

/-! ### Branch characterisation of `fetch_tags` -/

theorem fetch_tags_of_loop_error {rand : Shuffler} {env : Env} {count : Int} {e : String}
    (hloop : fetchLoop env (needed_candidates count) max_requests initState = .error e) :
    fetch_tags rand env count = .ok ⟨[], [], [], errorStatus e⟩ := by
  unfold fetch_tags
  simp only [hloop]

theorem fetch_tags_warning {rand : Shuffler} {env : Env} {count : Int} {s : FetchState}
    (hloop : fetchLoop env (needed_candidates count) max_requests initState = .ok s)
    (hlt : ((finalPool s).length : Int) < count) :
    fetch_tags rand env count =
      .ok ⟨rand (finalPool s), s.source_post_urls, rand (finalPool s),
        warningStatus (rand (finalPool s)).length⟩ := by
  unfold fetch_tags
  simp only [hloop]
  rw [if_pos hlt]

theorem fetch_tags_val_error {rand : Shuffler} {env : Env} {count : Int} {s : FetchState}
    (hloop : fetchLoop env (needed_candidates count) max_requests initState = .ok s)
    (hge : ¬ ((finalPool s).length : Int) < count) (hneg : count < 0) :
    fetch_tags rand env count = .error sampleErrorMsg := by
  unfold fetch_tags
  simp only [hloop]
  rw [if_neg hge]
  unfold pySample
  rw [if_pos (Or.inl hneg)]

theorem fetch_tags_success {rand : Shuffler} {env : Env} {count : Int} {s : FetchState}
    (hloop : fetchLoop env (needed_candidates count) max_requests initState = .ok s)
    (hge : ¬ ((finalPool s).length : Int) < count) (hpos : 0 ≤ count) :
    fetch_tags rand env count =
      .ok ⟨(rand (finalPool s)).take count.toNat, s.source_post_urls, finalPool s,
        successStatus ((rand (finalPool s)).take count.toNat).length⟩ := by
  unfold fetch_tags
  simp only [hloop]
  rw [if_neg hge]
  unfold pySample
  rw [if_neg (by
    rw [not_or]
    exact ⟨Int.not_lt.mpr hpos, hge⟩)]

/-! ### The claims -/

/-- C1: for every `targetCount ≥ 0`, if `fetch_tags` returns with a status
indicating success, the returned sample has exactly `targetCount` elements,
all pairwise distinct, and each a member of the returned full pool. -/
theorem fetch_tags_success_sample_spec (rand : Shuffler) (env : Env) (count : Int)
    (r : FetchResult) (hrand : ∀ l, (rand l).Perm l) (hcount : 0 ≤ count)
    (h : fetch_tags rand env count = .ok r)
    (hs : statusIndicatesSuccess r.status) :
    (r.tags.length : Int) = count ∧ r.tags.Nodup ∧ ∀ t ∈ r.tags, t ∈ r.full_pool := by
  cases hloop : fetchLoop env (needed_candidates count) max_requests initState with
  | error e =>
    rw [fetch_tags_of_loop_error hloop] at h
    injection h with h
    subst h
    exact absurd hs (not_success_of_head (errorStatus_head e) (by decide))
  | ok s =>
    by_cases hlt : ((finalPool s).length : Int) < count
    · rw [fetch_tags_warning hloop hlt] at h
      injection h with h
      subst h
      exact absurd hs (not_success_of_head (warningStatus_head _) (by decide))
    · rw [fetch_tags_success hloop hlt hcount] at h
      injection h with h
      subst h
      have hinv := fetchLoop_inv env _ _ _ _ initState_inv hloop
      have hperm := hrand (finalPool s)
      have hlenperm : (rand (finalPool s)).length = (finalPool s).length :=
        hperm.length_eq
      rw [Int.not_lt] at hlt
      have hle : count.toNat ≤ (finalPool s).length := by omega
      have hlen : (List.take count.toNat (rand (finalPool s))).length = count.toNat := by
        rw [List.length_take, hlenperm]
        exact inf_eq_left.mpr hle
      refine ⟨?_, ?_, ?_⟩
      · show ((List.take count.toNat (rand (finalPool s))).length : Int) = count
        rw [hlen]
        exact Int.toNat_of_nonneg hcount
      · show (List.take count.toNat (rand (finalPool s))).Nodup
        exact List.Nodup.sublist (List.take_sublist _ _)
          (hperm.symm.nodup (finalPool_nodup hinv))
      · show ∀ t ∈ List.take count.toNat (rand (finalPool s)), t ∈ finalPool s
        intro t ht
        exact hperm.mem_iff.mp ((List.take_sublist _ _).subset ht)

/-- Witness for C1 at `rand = id`, `env = envEmpty`, `targetCount = 0`. -/
theorem fetch_tags_success_sample_spec_witness :
    ((([] : List String).length : Int) = 0 ∧ ([] : List String).Nodup ∧
      ∀ t ∈ ([] : List String), t ∈ ([] : List String)) :=
  fetch_tags_success_sample_spec id envEmpty 0 ⟨[], [], [], successStatus 0⟩
    (fun l => List.Perm.refl l) (le_refl 0) rfl (successStatus_indicates 0)

/-- C2: when the loop exits without a transport error but the combined pool
falls short of `targetCount`, `fetch_tags` returns the whole (reordered)
pool as the sample, the source set, that same list as the full pool, and a
warning status naming the shortfall; `sample == fullPool` on this path. -/
theorem fetch_tags_shortfall_returns_pool (rand : Shuffler) (env : Env) (count : Int)
    (s : FetchState) (hrand : ∀ l, (rand l).Perm l)
    (hloop : fetchLoop env (needed_candidates count) max_requests initState = .ok s)
    (hlt : ((finalPool s).length : Int) < count) :
    ∃ r, fetch_tags rand env count = .ok r ∧
      r.tags = rand (finalPool s) ∧ r.tags.Perm (finalPool s) ∧
      r.tags = r.full_pool ∧ r.post_urls = s.source_post_urls ∧
      r.status = warningStatus r.tags.length :=
  ⟨_, fetch_tags_warning hloop hlt, rfl, hrand _, rfl, rfl, rfl⟩

/-- Witness for C2 at `rand = id`, `env = envEmpty`, `targetCount = 1`. -/
theorem fetch_tags_shortfall_returns_pool_witness :
    ∃ r, fetch_tags id envEmpty 1 = .ok r ∧
      r.tags = id (finalPool stateEmpty10) ∧ r.tags.Perm (finalPool stateEmpty10) ∧
      r.tags = r.full_pool ∧ r.post_urls = stateEmpty10.source_post_urls ∧
      r.status = warningStatus r.tags.length :=
  fetch_tags_shortfall_returns_pool id envEmpty 1 stateEmpty10
    (fun l => List.Perm.refl l) rfl (by decide)

/-- C3: a transport error on any request aborts the whole operation with an
empty result carrying an error status that embeds the failure detail; the
loop's outcome is already fixed by the responses up to the failing request,
so no further request is consulted. -/
theorem fetch_tags_transport_error_fail_fast (rand : Shuffler) (env : Env) (count : Int)
    (e : String)
    (hloop : fetchLoop env (needed_candidates count) max_requests initState = .error e) :
    fetch_tags rand env count = .ok ⟨[], [], [], errorStatus e⟩ ∧
      ∃ r, env r = .error e ∧
        ∀ env' : Env, (∀ i, i ≤ r → env' i = env i) →
          fetchLoop env' (needed_candidates count) max_requests initState = .error e := by
  refine ⟨fetch_tags_of_loop_error hloop, ?_⟩
  obtain ⟨r, hr, _, hloc⟩ := fetchLoop_error_local env _ _ _ _ hloop
  exact ⟨r, hr, hloc⟩

/-- Witness for C3: `env1` succeeds once (collecting tags) then fails. -/
theorem fetch_tags_transport_error_fail_fast_witness :
    fetch_tags id env1 5 = .ok ⟨[], [], [], errorStatus "t2"⟩ ∧
      ∃ r, env1 r = .error "t2" ∧
        ∀ env' : Env, (∀ i, i ≤ r → env' i = env1 i) →
          fetchLoop env' (needed_candidates 5) max_requests initState = .error "t2" :=
  fetch_tags_transport_error_fail_fast id env1 5 "t2" rfl

/-- C4: on every return without a transport error the full pool's size is
the sum of the two pools' sizes, the full pool has no duplicate string, and
no collected general-side string coincides with a prefixed artist entry. -/
theorem fetch_tags_pool_disjoint_union (rand : Shuffler) (env : Env) (count : Int)
    (s : FetchState) (r : FetchResult) (hrand : ∀ l, (rand l).Perm l)
    (hloop : fetchLoop env (needed_candidates count) max_requests initState = .ok s)
    (h : fetch_tags rand env count = .ok r) :
    r.full_pool.length = s.collected_tags.length + s.collected_artist_tags.length ∧
    r.full_pool.Nodup ∧
    ∀ t ∈ s.collected_tags, t ∉ s.collected_artist_tags.map artistTag := by
  have hinv := fetchLoop_inv env _ _ _ _ initState_inv hloop
  by_cases hlt : ((finalPool s).length : Int) < count
  · rw [fetch_tags_warning hloop hlt] at h
    injection h with h
    subst h
    refine ⟨?_, ?_, finalPool_disjoint hinv⟩
    · show (rand (finalPool s)).length = _
      rw [(hrand _).length_eq, finalPool_length]
    · show (rand (finalPool s)).Nodup
      exact (hrand _).symm.nodup (finalPool_nodup hinv)
  · by_cases hneg : count < 0
    · rw [fetch_tags_val_error hloop hlt hneg] at h
      exact Except.noConfusion h
    · rw [fetch_tags_success hloop hlt (Int.not_lt.mp hneg)] at h
      injection h with h
      subst h
      exact ⟨finalPool_length s, finalPool_nodup hinv, finalPool_disjoint hinv⟩

/-- Witness for C4 at `rand = id`, `env = envEmpty`, `targetCount = 0`. -/
theorem fetch_tags_pool_disjoint_union_witness :
    (⟨[], [], [], successStatus 0⟩ : FetchResult).full_pool.length =
      stateEmpty10.collected_tags.length + stateEmpty10.collected_artist_tags.length ∧
    (⟨[], [], [], successStatus 0⟩ : FetchResult).full_pool.Nodup ∧
    ∀ t ∈ stateEmpty10.collected_tags,
      t ∉ stateEmpty10.collected_artist_tags.map artistTag :=
  fetch_tags_pool_disjoint_union id envEmpty 0 stateEmpty10
    ⟨[], [], [], successStatus 0⟩ (fun l => List.Perm.refl l) rfl rfl

/-- C5: `needed_candidates` is `count * 3 + 20`; the loop runs only while
the combined unique count is below it and fewer than `max_requests = 10`
requests were made, so at exit either the threshold is met or exactly 10
requests happened, never more; an empty post list still consumes one
attempt (the counter advances and nothing else changes). -/
theorem fetch_tags_loop_bound (env : Env) (count : Int) (s : FetchState)
    (hloop : fetchLoop env (needed_candidates count) max_requests initState = .ok s) :
    needed_candidates count = count * 3 + 20 ∧
    s.requests_made ≤ max_requests ∧
    (needed_candidates count ≤ combinedCount s ∨ s.requests_made = max_requests) ∧
    ∀ (fuel : Nat) (st : FetchState),
      combinedCount st < needed_candidates count → st.requests_made < max_requests →
      env st.requests_made = .ok [] →
      fetchLoop env (needed_candidates count) (fuel + 1) st =
        fetchLoop env (needed_candidates count) fuel
          { st with requests_made := st.requests_made + 1 } := by
  obtain ⟨h1, h2⟩ := fetchLoop_requests env _ max_requests initState s rfl hloop
  exact ⟨rfl, h1, h2,
    fun fuel st hg1 hg2 henv => fetchLoop_empty_step env _ fuel st ⟨hg1, hg2⟩ henv⟩

/-- Witness for C5 at `env = envEmpty`, `targetCount = 0`. -/
theorem fetch_tags_loop_bound_witness :
    needed_candidates 0 = 0 * 3 + 20 ∧
    stateEmpty10.requests_made ≤ max_requests ∧
    (needed_candidates 0 ≤ combinedCount stateEmpty10 ∨
      stateEmpty10.requests_made = max_requests) ∧
    ∀ (fuel : Nat) (st : FetchState),
      combinedCount st < needed_candidates 0 → st.requests_made < max_requests →
      envEmpty st.requests_made = .ok [] →
      fetchLoop envEmpty (needed_candidates 0) (fuel + 1) st =
        fetchLoop envEmpty (needed_candidates 0) fuel
          { st with requests_made := st.requests_made + 1 } :=
  fetch_tags_loop_bound envEmpty 0 stateEmpty10 rfl

/-- C6 counterexample: with `targetCount = 0` the candidate threshold is
`20`, which the empty initial pool does not satisfy, so the loop still
issues requests — visible here because a failing network surfaces in the
status even though no candidate was ever needed for the sample. -/
theorem fetch_tags_zero_threshold_not_trivial :
    needed_candidates 0 = 20 ∧ ¬ (needed_candidates 0 ≤ combinedCount initState) ∧
    fetch_tags id envDown 0 = .ok ⟨[], [], [], errorStatus "boom"⟩ :=
  ⟨rfl, by decide, rfl⟩

/-- C6 (amended): `targetCount = 0` is legal and always yields an empty
sample, but the candidate threshold is `20`, not trivially satisfied, so
the aggregation loop still runs. -/
theorem fetch_tags_zero_empty_sample (rand : Shuffler) (env : Env) :
    needed_candidates 0 = 20 ∧
    ∃ r, fetch_tags rand env 0 = .ok r ∧ r.tags = [] := by
  refine ⟨rfl, ?_⟩
  cases hloop : fetchLoop env (needed_candidates 0) max_requests initState with
  | error e => exact ⟨_, fetch_tags_of_loop_error hloop, rfl⟩
  | ok s =>
    have hge : ¬ ((finalPool s).length : Int) < 0 :=
      Int.not_lt.mpr (Int.natCast_nonneg _)
    refine ⟨_, fetch_tags_success hloop hge (le_refl 0), ?_⟩
    show (rand (finalPool s)).take (0 : Int).toNat = []
    rfl

/-- C7: in random-range mode an inverted range (`min > max`) produces the
validation error dialog and never launches the fetch worker. -/
theorem start_generation_rejects_inverted_range
    (fixedEntry minEntry maxEntry : String) (randint : Int → Int → Int)
    (min_val max_val : Int)
    (hmin : pyInt minEntry = some min_val) (hmax : pyInt maxEntry = some max_val)
    (hgt : min_val > max_val) :
    start_generation .random fixedEntry minEntry maxEntry randint =
      .showError "Input Error" minMaxErrorMsg ∧
    ∀ c, start_generation .random fixedEntry minEntry maxEntry randint ≠
      .startFetch c := by
  have hmain : start_generation .random fixedEntry minEntry maxEntry randint =
      .showError "Input Error" minMaxErrorMsg := by
    unfold start_generation
    simp only [hmin, hmax]
    rw [if_pos hgt]
  refine ⟨hmain, fun c hc => ?_⟩
  rw [hmain] at hc
  exact UIAction.noConfusion hc

/-- Witness for C7 at the spec's example `min = 10, max = 5`. -/
theorem start_generation_rejects_inverted_range_witness :
    (start_generation .random "" "10" "5" (fun a _ => a) =
      .showError "Input Error" minMaxErrorMsg ∧
    ∀ c, start_generation .random "" "10" "5" (fun a _ => a) ≠ .startFetch c) :=
  start_generation_rejects_inverted_range "" "10" "5" (fun a _ => a) 10 5
    rfl rfl (by decide)

/-- C8: the source export content is exactly the newline join of a sorted
permutation of the collected source URLs — nothing else. -/
theorem save_post_sources_sorted_join (urls : List String) :
    ∃ l, l.Perm urls ∧ l.Sorted (fun a b : String => a ≤ b) ∧
      save_post_sources_content urls = String.intercalate "\n" l := by
  refine ⟨pySorted urls, List.mergeSort_perm urls _, ?_, rfl⟩
  have hs := @List.sorted_mergeSort String (fun a b : String => decide (a ≤ b))
    (fun a b c hab hbc => decide_eq_true_iff.mpr
      (le_trans (decide_eq_true_iff.mp hab) (decide_eq_true_iff.mp hbc)))
    (fun a b => by rcases le_total a b with h | h <;> simp [h]) urls
  exact List.Pairwise.imp (fun h => decide_eq_true_iff.mp h) hs

/-- C9: for a negative `targetCount`, whenever the loop exits without a
transport error, the shortfall branch is skipped (a pool length is never
below a negative number) and `random.sample` raises `ValueError`, so
`fetch_tags` ends in an uncaught exception. -/
theorem fetch_tags_negative_count_value_error (rand : Shuffler) (env : Env)
    (count : Int) (s : FetchState) (hneg : count < 0)
    (hloop : fetchLoop env (needed_candidates count) max_requests initState = .ok s) :
    fetch_tags rand env count = .error sampleErrorMsg ∧
      ¬ ((finalPool s).length : Int) < count := by
  have hge : ¬ ((finalPool s).length : Int) < count := fun hc =>
    absurd (lt_trans hc hneg) (Int.not_lt.mpr (Int.natCast_nonneg _))
  exact ⟨fetch_tags_val_error hloop hge hneg, hge⟩

/-- Witness for C9 at `targetCount = -1`, `env = envEmpty`. -/
theorem fetch_tags_negative_count_value_error_witness :
    fetch_tags id envEmpty (-1) = .error sampleErrorMsg ∧
      ¬ ((finalPool stateEmpty10).length : Int) < (-1) :=
  fetch_tags_negative_count_value_error id envEmpty (-1) stateEmpty10
    (by decide) rfl

/-- C10: every element of the returned full pool is a whitespace-free token
or `"artist: "` followed by one, and no collected general-side tag ever
equals a prefixed artist entry (the prefix contains a space). -/
theorem fetch_tags_pool_token_shape (rand : Shuffler) (env : Env) (count : Int)
    (s : FetchState) (r : FetchResult) (hrand : ∀ l, (rand l).Perm l)
    (hloop : fetchLoop env (needed_candidates count) max_requests initState = .ok s)
    (h : fetch_tags rand env count = .ok r) :
    (∀ t ∈ r.full_pool, NoWs t ∨ ∃ u, NoWs u ∧ t = artistTag u) ∧
    ∀ t ∈ s.collected_tags, ∀ u, t ≠ artistTag u := by
  have hinv := fetchLoop_inv env _ _ _ _ initState_inv hloop
  have hshape := finalPool_shape hinv
  have hne : ∀ t ∈ s.collected_tags, ∀ u, t ≠ artistTag u :=
    fun t ht u => noWs_ne_artistTag (hinv.2.2.1 t ht) u
  by_cases hlt : ((finalPool s).length : Int) < count
  · rw [fetch_tags_warning hloop hlt] at h
    injection h with h
    subst h
    refine ⟨?_, hne⟩
    show ∀ t ∈ rand (finalPool s), _
    intro t ht
    exact hshape t ((hrand _).mem_iff.mp ht)
  · by_cases hneg : count < 0
    · rw [fetch_tags_val_error hloop hlt hneg] at h
      exact Except.noConfusion h
    · rw [fetch_tags_success hloop hlt (Int.not_lt.mp hneg)] at h
      injection h with h
      subst h
      exact ⟨fun t ht => hshape t ht, hne⟩

/-- Witness for C10 at `rand = id`, `env = envEmpty`, `targetCount = 0`. -/
theorem fetch_tags_pool_token_shape_witness :
    (∀ t ∈ (⟨[], [], [], successStatus 0⟩ : FetchResult).full_pool,
      NoWs t ∨ ∃ u, NoWs u ∧ t = artistTag u) ∧
    ∀ t ∈ stateEmpty10.collected_tags, ∀ u, t ≠ artistTag u :=
  fetch_tags_pool_token_shape id envEmpty 0 stateEmpty10
    ⟨[], [], [], successStatus 0⟩ (fun l => List.Perm.refl l) rfl rfl

end DanbooruTagGen
